import Mathlib

/-!
Shallow embedding of the authboss `recover` module
(`vendor/gopkg.in/authboss.v0/recover/recover.go`): password-recovery token
issuance (`startHandlerFunc` POST), verification (`verifyToken`) and
consumption (`completeHandlerFunc` POST), together with the primitives the
module calls: `crypto/md5` digests and `encoding/base64` (standard and
URL-safe alphabets, with padding).

Bytes are `Nat` values below 256, byte strings are `List Nat`, Go `string`s
are Lean `String`s, and `time.Time` values are modelled as `Int` instants
ordered by `<` (Go `t.After(u)` is `u < t`).  External collaborators
(randomness, the storer, bcrypt, validation, callbacks) are passed in as
explicit parameters, mirroring the interfaces the Go code consumes.
-/

set_option maxRecDepth 100000

namespace Recover

/-! ### crypto/md5 (RFC 1321), as called by `newToken` and `verifyToken` -/

/-- 2^32, the word modulus of MD5's 32-bit arithmetic. -/
def w32 : Nat := 4294967296

/-- Left-rotation of a 32-bit word `x` by `n` bits. -/
def rotl32 (x n : Nat) : Nat :=
  Nat.lor ((x <<< n) % w32) (x >>> (32 - n))

/-- The 64 MD5 round constants `K[i] = floor(2^32 * abs(sin(i+1)))`. -/
def md5K : List Nat :=
  [0xd76aa478, 0xe8c7b756, 0x242070db, 0xc1bdceee,
   0xf57c0faf, 0x4787c62a, 0xa8304613, 0xfd469501,
   0x698098d8, 0x8b44f7af, 0xffff5bb1, 0x895cd7be,
   0x6b901122, 0xfd987193, 0xa679438e, 0x49b40821,
   0xf61e2562, 0xc040b340, 0x265e5a51, 0xe9b6c7aa,
   0xd62f105d, 0x02441453, 0xd8a1e681, 0xe7d3fbc8,
   0x21e1cde6, 0xc33707d6, 0xf4d50d87, 0x455a14ed,
   0xa9e3e905, 0xfcefa3f8, 0x676f02d9, 0x8d2a4c8a,
   0xfffa3942, 0x8771f681, 0x6d9d6122, 0xfde5380c,
   0xa4beea44, 0x4bdecfa9, 0xf6bb4b60, 0xbebfbc70,
   0x289b7ec6, 0xeaa127fa, 0xd4ef3085, 0x04881d05,
   0xd9d4d039, 0xe6db99e5, 0x1fa27cf8, 0xc4ac5665,
   0xf4292244, 0x432aff97, 0xab9423a7, 0xfc93a039,
   0x655b59c3, 0x8f0ccc92, 0xffeff47d, 0x85845dd1,
   0x6fa87e4f, 0xfe2ce6e0, 0xa3014314, 0x4e0811a1,
   0xf7537e82, 0xbd3af235, 0x2ad7d2bb, 0xeb86d391]

/-- The 64 MD5 per-round shift amounts. -/
def md5S : List Nat :=
  [7, 12, 17, 22, 7, 12, 17, 22, 7, 12, 17, 22, 7, 12, 17, 22,
   5, 9, 14, 20, 5, 9, 14, 20, 5, 9, 14, 20, 5, 9, 14, 20,
   4, 11, 16, 23, 4, 11, 16, 23, 4, 11, 16, 23, 4, 11, 16, 23,
   6, 10, 15, 21, 6, 10, 15, 21, 6, 10, 15, 21, 6, 10, 15, 21]

/-- The MD5 nonlinear mixing function for operation index `i`. -/
def md5F (i b c d : Nat) : Nat :=
  if i < 16 then Nat.lor (Nat.land b c) (Nat.land (Nat.xor b 0xffffffff) d)
  else if i < 32 then Nat.lor (Nat.land d b) (Nat.land (Nat.xor d 0xffffffff) c)
  else if i < 48 then Nat.xor b (Nat.xor c d)
  else Nat.xor c (Nat.lor b (Nat.xor d 0xffffffff))

/-- The MD5 message-word index for operation `i`. -/
def md5g (i : Nat) : Nat :=
  if i < 16 then i
  else if i < 32 then (5 * i + 1) % 16
  else if i < 48 then (3 * i + 5) % 16
  else (7 * i) % 16

/-- One of the 64 MD5 operations: state `(a, b, c, d)`, message words `m`. -/
def md5step (m : List Nat) (st : Nat × Nat × Nat × Nat) (i : Nat) :
    Nat × Nat × Nat × Nat :=
  let f := (md5F i st.2.1 st.2.2.1 st.2.2.2 + st.1 + md5K.getD i 0
            + m.getD (md5g i) 0) % w32
  (st.2.2.2, (st.2.1 + rotl32 f (md5S.getD i 0)) % w32, st.2.1, st.2.2.1)

/-- Assemble bytes into little-endian 32-bit words, four bytes per word. -/
def bytesToWordsLE : List Nat → List Nat
  | b0 :: b1 :: b2 :: b3 :: rest =>
      (b0 + 256 * b1 + 65536 * b2 + 16777216 * b3) :: bytesToWordsLE rest
  | _ => []

/-- The little-endian 8-byte encoding of `n` (the MD5 length field). -/
def le8 (n : Nat) : List Nat :=
  (List.range 8).map (fun i => (n >>> (8 * i)) % 256)

/-- MD5 padding: append `0x80`, zero bytes to 56 mod 64, then the bit length. -/
def md5pad (msg : List Nat) : List Nat :=
  msg ++ (0x80 :: List.replicate ((120 - (msg.length + 1) % 64) % 64) 0)
      ++ le8 (msg.length * 8)

/-- Split a byte string into 64-byte blocks; the `fuel` argument only makes
the recursion structural (each step strips at least one byte, so an initial
fuel of the byte string's length never runs out). -/
def chunks64Fuel : Nat → List Nat → List (List Nat)
  | _, [] => []
  | 0, _ => []
  | fuel + 1, b :: rest =>
      (b :: rest).take 64 :: chunks64Fuel fuel ((b :: rest).drop 64)

/-- Split a byte string into 64-byte blocks. -/
def chunks64 (bs : List Nat) : List (List Nat) :=
  chunks64Fuel bs.length bs

/-- The MD5 compression function on one 64-byte block. -/
def md5block (st : Nat × Nat × Nat × Nat) (block : List Nat) :
    Nat × Nat × Nat × Nat :=
  let r := (List.range 64).foldl (md5step (bytesToWordsLE block)) st
  ((st.1 + r.1) % w32, (st.2.1 + r.2.1) % w32,
   (st.2.2.1 + r.2.2.1) % w32, (st.2.2.2 + r.2.2.2) % w32)

/-- The little-endian 4-byte encoding of a 32-bit word. -/
def wordLE (x : Nat) : List Nat :=
  [x % 256, (x >>> 8) % 256, (x >>> 16) % 256, (x >>> 24) % 256]

/-- `md5.Sum`: the 16-byte MD5 digest of a byte string. -/
def md5sum (msg : List Nat) : List Nat :=
  let st := (chunks64 (md5pad msg)).foldl md5block
      (0x67452301, 0xefcdab89, 0x98badcfe, 0x10325476)
  wordLE st.1 ++ wordLE st.2.1 ++ wordLE st.2.2.1 ++ wordLE st.2.2.2

/-! ### encoding/base64: `StdEncoding` and `URLEncoding`, both padded -/

/-- The alphabet of Go's `base64.StdEncoding`. -/
def b64StdAlphabet : List Char :=
  "ABCDEFGHIJKLMNOPQRSTUVWXYZabcdefghijklmnopqrstuvwxyz0123456789+/".data

/-- The alphabet of Go's `base64.URLEncoding`. -/
def b64UrlAlphabet : List Char :=
  "ABCDEFGHIJKLMNOPQRSTUVWXYZabcdefghijklmnopqrstuvwxyz0123456789-_".data

/-- Base64 encoding over a given 64-character alphabet, with `=` padding:
three input bytes become four output characters; a final group of one or two
bytes is padded with `==` or `=`. -/
def b64EncodeWith (alpha : List Char) : List Nat → List Char
  | [] => []
  | [b0] => [alpha.getD (b0 / 4) 'A', alpha.getD (b0 % 4 * 16) 'A', '=', '=']
  | [b0, b1] => [alpha.getD (b0 / 4) 'A', alpha.getD (b0 % 4 * 16 + b1 / 16) 'A',
                 alpha.getD (b1 % 16 * 4) 'A', '=']
  | b0 :: b1 :: b2 :: rest =>
      alpha.getD (b0 / 4) 'A' :: alpha.getD (b0 % 4 * 16 + b1 / 16) 'A' ::
      alpha.getD (b1 % 16 * 4 + b2 / 64) 'A' :: alpha.getD (b2 % 64) 'A' ::
      b64EncodeWith alpha rest

/-- The 6-bit value of an alphabet character, `none` for characters outside
the alphabet (such as `=`). -/
def b64CharVal (alpha : List Char) (c : Char) : Option Nat :=
  alpha.findIdx? (fun x => x = c)

/-- Decode one four-character base64 group.  `isLast` tells whether this is
the final group: `=` padding is accepted only there (Go's decoders reject
interior padding). -/
def b64DecodeChunk (alpha : List Char) (c0 c1 c2 c3 : Char) (isLast : Bool) :
    Option (List Nat) :=
  match b64CharVal alpha c0, b64CharVal alpha c1 with
  | some s0, some s1 =>
    if c2 = '=' then
      if c3 = '=' ∧ isLast = true then some [s0 * 4 + s1 / 16] else none
    else
      match b64CharVal alpha c2 with
      | some s2 =>
        if c3 = '=' then
          if isLast = true then some [s0 * 4 + s1 / 16, s1 % 16 * 16 + s2 / 4]
          else none
        else
          match b64CharVal alpha c3 with
          | some s3 => some [s0 * 4 + s1 / 16, s1 % 16 * 16 + s2 / 4,
                             s2 % 4 * 64 + s3]
          | none => none
      | none => none
  | _, _ => none

/-- Base64 decoding over a given alphabet: the input must be a sequence of
four-character groups; decoding fails (`none`) on characters outside the
alphabet, on misplaced padding, or on a length that is not a multiple of
four — mirroring Go's `DecodeString` returning an error. -/
def b64DecodeWith (alpha : List Char) : List Char → Option (List Nat)
  | [] => some []
  | c0 :: c1 :: c2 :: c3 :: rest =>
      match b64DecodeChunk alpha c0 c1 c2 c3 rest.isEmpty,
            b64DecodeWith alpha rest with
      | some chunk, some tail => some (chunk ++ tail)
      | _, _ => none
  | _ => none

/-! ### The recover module's data model -/

/-- The attributes of a user record that the recover module touches
(`authboss.Attributes` is a dynamic key/value map; this is its restriction to
the keys the module reads or writes).  `recoverTokenExpiry = none` models the
`recover_token_expiry` attribute being absent or not holding a `time.Time`,
so that `Attributes.DateTime` returns `ok = false`. -/
structure Attributes where
  primaryID : Option String
  email : Option String
  password : Option String
  recoverToken : Option String
  recoverTokenExpiry : Option Int
deriving DecidableEq

/-- The model of Go's zero `time.Time` (`var nullTime time.Time`), written
into `recover_token_expiry` on consumption: the earliest instant. -/
def nullTime : Int := 0

/-- A user store: the state behind the `RecoverStorer` the module consumes. -/
structure Store where
  users : List Attributes
deriving DecidableEq

/-- Modelled from the spec: `RecoveryStore.FindByIdentifier(id) -> User |
NotFound` (the `ctx.LoadUser` path of the external authboss core, absent from
the sources): returns the first user whose primary identifier is `id`. -/
def Store.findByIdentifier (s : Store) (pid : String) : Option Attributes :=
  s.users.find? (fun u => u.primaryID == some pid)

/-- The `RecoverStorer.RecoverUser(recoverToken)` contract, as documented on
the interface in the source: look a user up by the stored `recover_token`
attribute, `ErrUserNotFound` (here `none`) when no record has that key. -/
def Store.recoverUser (s : Store) (tok : String) : Option Attributes :=
  s.users.find? (fun u => u.recoverToken == some tok)

/-- Modelled from the spec: `RecoveryStore.Save(User)` (the `ctx.SaveUser`
path of the external authboss core): atomically replaces every record with
the saved record's primary identifier by the saved record. -/
def Store.save (s : Store) (u : Attributes) : Store :=
  ⟨s.users.map (fun v => if v.primaryID == u.primaryID then u else v)⟩

/-! ### Token generation (`newToken`) -/

/-- The transport encoding of a freshly drawn secret:
`base64.URLEncoding.EncodeToString(token)`. -/
def secretOf (bs : List Nat) : String :=
  String.mk (b64EncodeWith b64UrlAlphabet bs)

/-- The stored fingerprint of a secret:
`base64.StdEncoding.EncodeToString(md5.Sum(token))`. -/
def fingerprintOf (bs : List Nat) : String :=
  String.mk (b64EncodeWith b64StdAlphabet (md5sum bs))

/-- `newToken`: draws 32 random bytes and returns the encoded secret together
with the encoded MD5 checksum.  Randomness is passed explicitly: `none`
models `rand.Read` failing (the only error path), `some bs` models it filling
the 32-byte buffer with `bs`. -/
def newToken (randRead : Option (List Nat)) : Option (String × String) :=
  match randRead with
  | none => none
  | some bs => some (secretOf bs, fingerprintOf bs)

/-! ### Verification (`verifyToken`) -/

/-- The errors `verifyToken` can return: `authboss.ClientDataErr` for a
missing/empty `token` form value, a `base64.CorruptInputError` from
`DecodeString`, `authboss.ErrUserNotFound` propagated from
`RecoverStorer.RecoverUser`, and `errRecoveryTokenExpired`. -/
inductive RecoverError where
  | clientDataErr
  | corruptInput
  | userNotFound
  | tokenExpired
deriving DecidableEq

/-- `verifyToken`: reads the `token` form value (passed here as `token`),
rejects an empty value, base64-URL-decodes it, recomputes the MD5 checksum,
looks the user up by the std-encoded checksum (`fingerprintOf`, the same
computation `newToken` performs on issuance), and finally checks
`recover_token_expiry`: missing/unreadable expiry or `time.Now().After(expiry)`
yields `errRecoveryTokenExpired`, otherwise the user's attributes. -/
def verifyToken (store : Store) (now : Int) (token : String) :
    Except RecoverError Attributes :=
  if token.length = 0 then .error .clientDataErr
  else
    match b64DecodeWith b64UrlAlphabet token.data with
    | none => .error .corruptInput
    | some decoded =>
      match store.recoverUser (fingerprintOf decoded) with
      | none => .error .userNotFound
      | some attrs =>
        match attrs.recoverTokenExpiry with
        | none => .error .tokenExpired
        | some expiry => if expiry < now then .error .tokenExpired else .ok attrs

/-! ### Issuance (`startHandlerFunc`, POST branch) -/

/-- The flash shown on issuance:
"An email has been sent with further instructions on how to reset your
password". -/
def recoverInitiateSuccessFlash : String :=
  "An email has been sent with further instructions on how to reset your password"

/-- The outcome of the issuance handler, as returned to the framework:
`renderErrs` is the form re-rendered with validation errors,
`errAndRedirect` is the `authboss.ErrAndRedirect` value returned when the
user is not found, `internalError` is any other error returned to the
framework (email read, entropy, or save failure), and `redirect` is the
handler's own success path (flash put in the session, then redirect). -/
inductive StartResult where
  | renderErrs
  | errAndRedirect (location flashSuccess : String)
  | internalError
  | redirect (location flashSuccess : String)
deriving DecidableEq

/-- Modelled from the spec: what the caller of `Initiate` observes of an
outcome — the redirect target and the success flash.  The spec states the
`ErrAndRedirect` value is dispatched by the framework into exactly such a
redirect-with-flash, the same success outcome as a real issuance. -/
def StartResult.observable : StartResult → Option (String × String)
  | .errAndRedirect loc flash => some (loc, flash)
  | .redirect loc flash => some (loc, flash)
  | _ => none

/-- The POST branch of `startHandlerFunc`.  `validationErrs` is the result of
the external `authboss.Validate` on the identifier fields; `randRead` feeds
`newToken`; `now` and `tokenDuration` model `time.Now()` and
`rec.RecoverTokenDuration`; `recoverOKPath` is `rec.RecoverOKPath`.  Returns
the outcome, the store after the handler, and the encoded secret handed to
the mailer (`none` when no email was sent). -/
def startHandlerPost (store : Store) (now tokenDuration : Int)
    (recoverOKPath : String) (validationErrs : Bool)
    (randRead : Option (List Nat)) (primaryID : String) :
    StartResult × Store × Option String :=
  if validationErrs then (.renderErrs, store, none)
  else
    match store.findByIdentifier primaryID with
    | none =>
        (.errAndRedirect recoverOKPath recoverInitiateSuccessFlash, store, none)
    | some user =>
      match user.email with
      | none => (.internalError, store, none)
      | some _ =>
        match newToken randRead with
        | none => (.internalError, store, none)
        | some (encodedToken, encodedChecksum) =>
            (.redirect recoverOKPath recoverInitiateSuccessFlash,
             store.save { user with recoverToken := some encodedChecksum,
                                    recoverTokenExpiry := some (now + tokenDuration) },
             some encodedToken)

/-! ### Consumption (`completeHandlerFunc`, POST branch) -/

/-- The outcome of the completion handler: `clientDataErr` for an empty
`token` form value, `renderValidationErrs` is the form re-rendered with
password-policy errors, `verifyErr` propagates a `verifyToken` failure,
`bcryptErr`/`internalError` are the remaining error returns, and
`redirect` is the success path: session key set to the primary identifier,
then redirect to `AuthLoginOKPath`. -/
inductive CompleteResult where
  | clientDataErr
  | renderValidationErrs
  | verifyErr (e : RecoverError)
  | bcryptErr
  | internalError
  | redirect (location sessionKey : String)
deriving DecidableEq

/-- The POST branch of `completeHandlerFunc`.  `passwordValidationErrs` is
the result of the external `authboss.Validate` on the password fields;
`bcryptHash` models `bcrypt.GenerateFromPassword` (`none` a hashing
failure); `fireAfterOK` models `Callbacks.FireAfter(EventPasswordReset)`
succeeding; `authLoginOKPath` is `r.AuthLoginOKPath`.  The order mirrors the
source: empty-token check, then password-policy validation, then
`verifyToken`, then bcrypt, then the single `SaveUser` carrying the new
password hash, the emptied `recover_token` and the zero
`recover_token_expiry`. -/
def completeHandlerPost (store : Store) (now : Int)
    (passwordValidationErrs : Bool) (bcryptHash : String → Option String)
    (fireAfterOK : Bool) (authLoginOKPath : String)
    (token password : String) : CompleteResult × Store :=
  if token.length = 0 then (.clientDataErr, store)
  else if passwordValidationErrs then (.renderValidationErrs, store)
  else
    match verifyToken store now token with
    | .error e => (.verifyErr e, store)
    | .ok user =>
      match bcryptHash password with
      | none => (.bcryptErr, store)
      | some hash =>
        let user' : Attributes :=
          { user with password := some hash,
                      recoverToken := some "",
                      recoverTokenExpiry := some nullTime }
        match user'.primaryID with
        | none => (.internalError, store)
        | some pid =>
          let store' := store.save user'
          if fireAfterOK then (.redirect authLoginOKPath pid, store')
          else (.internalError, store')

/-! ### Helper lemmas: base64 -/

/-- Every URL-alphabet character decodes back to its 6-bit index, and none of
them is the padding character. -/
theorem b64UrlCharVal_getD (v : Nat) (hv : v < 64) :
    b64CharVal b64UrlAlphabet (b64UrlAlphabet.getD v 'A') = some v ∧
    b64UrlAlphabet.getD v 'A' ≠ '=' := by
  have h : ∀ w : Fin 64,
      b64CharVal b64UrlAlphabet (b64UrlAlphabet.getD w.val 'A') = some w.val ∧
      b64UrlAlphabet.getD w.val 'A' ≠ '=' := by decide
  exact h ⟨v, hv⟩

/-- URL-safe base64 decoding undoes URL-safe base64 encoding on byte
strings. -/
theorem b64Url_roundtrip : ∀ bs : List Nat, (∀ b ∈ bs, b < 256) →
    b64DecodeWith b64UrlAlphabet (b64EncodeWith b64UrlAlphabet bs) = some bs
  | [], _ => rfl
  | [b0], h => by
      have hb0 : b0 < 256 := h b0 (by simp)
      have h0 := b64UrlCharVal_getD (b0 / 4) (by omega)
      have h1 := b64UrlCharVal_getD (b0 % 4 * 16) (by omega)
      simp only [b64EncodeWith, b64DecodeWith, b64DecodeChunk, h0.1, h1.1]
      simp only [List.isEmpty_nil, ite_true, if_true, and_self, and_true,
        eq_self_iff_true, Option.some.injEq, List.cons.injEq,
        List.append_nil, List.nil_append, List.cons_append]
      omega
  | [b0, b1], h => by
      have hb0 : b0 < 256 := h b0 (by simp)
      have hb1 : b1 < 256 := h b1 (by simp)
      have h0 := b64UrlCharVal_getD (b0 / 4) (by omega)
      have h1 := b64UrlCharVal_getD (b0 % 4 * 16 + b1 / 16) (by omega)
      have h2 := b64UrlCharVal_getD (b1 % 16 * 4) (by omega)
      simp only [b64EncodeWith, b64DecodeWith, b64DecodeChunk, h0.1, h1.1]
      rw [if_neg h2.2]
      simp only [h2.1, List.isEmpty_nil, ite_true, if_true, and_self, and_true,
        eq_self_iff_true, Option.some.injEq, List.cons.injEq,
        List.append_nil, List.nil_append, List.cons_append]
      omega
  | b0 :: b1 :: b2 :: b3 :: rest, h => by
      have hb0 : b0 < 256 := h b0 (by simp)
      have hb1 : b1 < 256 := h b1 (by simp)
      have hb2 : b2 < 256 := h b2 (by simp)
      have h0 := b64UrlCharVal_getD (b0 / 4) (by omega)
      have h1 := b64UrlCharVal_getD (b0 % 4 * 16 + b1 / 16) (by omega)
      have h2 := b64UrlCharVal_getD (b1 % 16 * 4 + b2 / 64) (by omega)
      have h3 := b64UrlCharVal_getD (b2 % 64) (by omega)
      have ih := b64Url_roundtrip (b3 :: rest) (fun b hb =>
        h b (List.mem_cons_of_mem _ (List.mem_cons_of_mem _
          (List.mem_cons_of_mem _ hb))))
      simp only [b64EncodeWith, b64DecodeWith, b64DecodeChunk, h0.1, h1.1]
      rw [if_neg h2.2]
      simp only [h2.1]
      rw [if_neg h3.2]
      simp only [h3.1, ih]
      simp only [List.isEmpty_nil, ite_true, if_true, and_self, and_true,
        eq_self_iff_true, Option.some.injEq, List.cons.injEq,
        List.append_nil, List.nil_append, List.cons_append]
      omega
  | [b0, b1, b2], h => by
      have hb0 : b0 < 256 := h b0 (by simp)
      have hb1 : b1 < 256 := h b1 (by simp)
      have hb2 : b2 < 256 := h b2 (by simp)
      have h0 := b64UrlCharVal_getD (b0 / 4) (by omega)
      have h1 := b64UrlCharVal_getD (b0 % 4 * 16 + b1 / 16) (by omega)
      have h2 := b64UrlCharVal_getD (b1 % 16 * 4 + b2 / 64) (by omega)
      have h3 := b64UrlCharVal_getD (b2 % 64) (by omega)
      simp only [b64EncodeWith, b64DecodeWith, b64DecodeChunk, h0.1, h1.1]
      rw [if_neg h2.2]
      simp only [h2.1]
      rw [if_neg h3.2]
      simp only [h3.1, List.isEmpty_nil, ite_true, if_true, and_self, and_true,
        eq_self_iff_true, Option.some.injEq, List.cons.injEq,
        List.append_nil, List.nil_append, List.cons_append]
      omega

/-- An indexed lookup with an in-list default always lands in the list. -/
theorem getD_mem_of_default_mem (l : List Char) (n : Nat) (d : Char)
    (hd : d ∈ l) : l.getD n d ∈ l := by
  rcases Nat.lt_or_ge n l.length with h | h
  · rw [List.getD_eq_getElem l d h]
    exact List.getElem_mem h
  · rw [List.getD_eq_default l d h]
    exact hd

/-- Base64 encoding of a nonempty byte string is nonempty. -/
theorem b64EncodeWith_ne_nil (alpha : List Char) :
    ∀ bs : List Nat, bs ≠ [] → b64EncodeWith alpha bs ≠ []
  | [], h => absurd rfl h
  | [_], _ => by simp [b64EncodeWith]
  | [_, _], _ => by simp [b64EncodeWith]
  | _ :: _ :: _ :: _, _ => by simp [b64EncodeWith]

/-- Every character emitted by base64 encoding is either an alphabet
character or the padding character. -/
theorem b64EncodeWith_mem (alpha : List Char) (hA : 'A' ∈ alpha) :
    ∀ (bs : List Nat), ∀ c ∈ b64EncodeWith alpha bs, c ∈ alpha ∨ c = '='
  | [], c, hc => absurd hc (by simp [b64EncodeWith])
  | [b0], c, hc => by
      simp only [b64EncodeWith, List.mem_cons, List.not_mem_nil, or_false] at hc
      rcases hc with h | h | h | h
      all_goals subst h
      all_goals first
        | exact Or.inr rfl
        | exact Or.inl (getD_mem_of_default_mem _ _ _ hA)
  | [b0, b1], c, hc => by
      simp only [b64EncodeWith, List.mem_cons, List.not_mem_nil, or_false] at hc
      rcases hc with h | h | h | h
      all_goals subst h
      all_goals first
        | exact Or.inr rfl
        | exact Or.inl (getD_mem_of_default_mem _ _ _ hA)
  | [b0, b1, b2], c, hc => by
      simp only [b64EncodeWith, List.mem_cons, List.not_mem_nil, or_false] at hc
      rcases hc with h | h | h | h
      all_goals subst h
      all_goals exact Or.inl (getD_mem_of_default_mem _ _ _ hA)
  | b0 :: b1 :: b2 :: b3 :: rest, c, hc => by
      simp only [b64EncodeWith, List.mem_cons] at hc
      rcases hc with h | h | h | h | h
      · exact h ▸ Or.inl (getD_mem_of_default_mem _ _ _ hA)
      · exact h ▸ Or.inl (getD_mem_of_default_mem _ _ _ hA)
      · exact h ▸ Or.inl (getD_mem_of_default_mem _ _ _ hA)
      · exact h ▸ Or.inl (getD_mem_of_default_mem _ _ _ hA)
      · exact b64EncodeWith_mem alpha hA (b3 :: rest) c h

/-- MD5 digests are 16 bytes long. -/
theorem md5sum_length (msg : List Nat) : (md5sum msg).length = 16 := by
  simp [md5sum, wordLE]

/-- A stored fingerprint is never the empty string. -/
theorem fingerprintOf_ne_empty (bs : List Nat) : fingerprintOf bs ≠ "" := by
  intro h
  have hd : (fingerprintOf bs).data = [] := by rw [h]
  have h1 : md5sum bs ≠ [] := by
    intro hnil
    have hl := md5sum_length bs
    rw [hnil] at hl
    simp at hl
  exact b64EncodeWith_ne_nil b64StdAlphabet (md5sum bs) h1 hd

/-- A transport-encoded secret of a nonempty byte string is nonempty. -/
theorem secretOf_length_ne_zero (bs : List Nat) (h : bs ≠ []) :
    (secretOf bs).length ≠ 0 := by
  intro hlen
  have hd : (secretOf bs).data = [] := List.length_eq_zero.mp hlen
  exact b64EncodeWith_ne_nil b64UrlAlphabet bs h hd

/-! ### Helper lemmas: the store -/

/-- A user returned by a fingerprint lookup is in the store and holds that
fingerprint. -/
theorem recoverUser_mem (s : Store) (tok : String) (u : Attributes)
    (h : s.recoverUser tok = some u) :
    u ∈ s.users ∧ u.recoverToken = some tok := by
  refine ⟨List.mem_of_find?_eq_some h, ?_⟩
  have hp := List.find?_some h
  exact beq_iff_eq.mp hp

/-- A user returned by an identifier lookup is in the store and has that
primary identifier. -/
theorem findByIdentifier_mem (s : Store) (pid : String) (u : Attributes)
    (h : s.findByIdentifier pid = some u) :
    u ∈ s.users ∧ u.primaryID = some pid := by
  refine ⟨List.mem_of_find?_eq_some h, ?_⟩
  have hp := List.find?_some h
  exact beq_iff_eq.mp hp

/-- Saving a record that keeps a found user's primary identifier makes the
identifier lookup return the saved record. -/
theorem findByIdentifier_save (s : Store) (u u' : Attributes) (pid : String)
    (hfind : s.findByIdentifier pid = some u)
    (hp : u'.primaryID = u.primaryID) :
    (s.save u').findByIdentifier pid = some u' := by
  have hu := findByIdentifier_mem s pid u hfind
  unfold Store.findByIdentifier Store.save
  rw [List.find?_map]
  have hpred : ∀ v : Attributes,
      ((fun w => w.primaryID == some pid) ∘
        (fun w => if w.primaryID == u'.primaryID then u' else w)) v =
      (v.primaryID == some pid) := by
    intro v
    by_cases hc : v.primaryID == u'.primaryID
    · simp only [Function.comp_apply]
      rw [if_pos hc, ← beq_iff_eq.mp hc]
    · simp only [Function.comp_apply]
      rw [if_neg hc]
  rw [funext hpred]
  have hfind' : s.users.find? (fun w => w.primaryID == some pid) = some u := hfind
  rw [hfind', Option.map_some']
  rw [if_pos (beq_iff_eq.mpr hp.symm)]

/-- After saving a record with a cleared fingerprint, a lookup by any
nonempty fingerprint held only by the saved user's identities fails. -/
theorem recoverUser_save_cleared (s : Store) (u u' : Attributes) (fp : String)
    (hp : u'.primaryID = u.primaryID) (ht : u'.recoverToken = some "")
    (hfp : fp ≠ "")
    (huniq : ∀ v ∈ s.users, v.recoverToken = some fp →
      v.primaryID = u.primaryID) :
    (s.save u').recoverUser fp = none := by
  apply List.find?_eq_none.mpr
  intro x hx
  simp only [Store.save, List.mem_map] at hx
  obtain ⟨v, hv, rfl⟩ := hx
  by_cases hc : v.primaryID == u'.primaryID
  · rw [if_pos hc, ht]
    simp only [beq_iff_eq, Option.some.injEq]
    intro h
    exact hfp h.symm
  · rw [if_neg hc]
    simp only [beq_iff_eq]
    intro h
    have := huniq v hv h
    exact hc (beq_iff_eq.mpr (this.trans hp.symm))

/-! ### Helper lemmas: verifyToken -/

/-- Unfolding of `verifyToken` when the token decodes and a user with a
readable expiry is found: only the expiry comparison remains. -/
theorem verifyToken_found_some (store : Store) (now : Int) (token : String)
    (decoded : List Nat) (u : Attributes) (expiry : Int)
    (hne : token.length ≠ 0)
    (hdec : b64DecodeWith b64UrlAlphabet token.data = some decoded)
    (hfind : store.recoverUser (fingerprintOf decoded) = some u)
    (hexp : u.recoverTokenExpiry = some expiry) :
    verifyToken store now token =
      if expiry < now then .error .tokenExpired else .ok u := by
  simp [verifyToken, hne, hdec, hfind, hexp]

/-- Unfolding of `verifyToken` when the token decodes and a user is found
whose stored expiry is absent or unreadable. -/
theorem verifyToken_found_none (store : Store) (now : Int) (token : String)
    (decoded : List Nat) (u : Attributes)
    (hne : token.length ≠ 0)
    (hdec : b64DecodeWith b64UrlAlphabet token.data = some decoded)
    (hfind : store.recoverUser (fingerprintOf decoded) = some u)
    (hexp : u.recoverTokenExpiry = none) :
    verifyToken store now token = .error .tokenExpired := by
  simp [verifyToken, hne, hdec, hfind, hexp]

/-- Inversion of a successful `verifyToken`: the token was nonempty, it
decoded, and the user was found by the recomputed fingerprint. -/
theorem verifyToken_ok_inv (store : Store) (now : Int) (token : String)
    (u : Attributes) (h : verifyToken store now token = .ok u) :
    token.length ≠ 0 ∧
    ∃ decoded, b64DecodeWith b64UrlAlphabet token.data = some decoded ∧
      store.recoverUser (fingerprintOf decoded) = some u := by
  by_cases hne : token.length = 0
  · simp [verifyToken, hne] at h
  · refine ⟨hne, ?_⟩
    rcases hdec : b64DecodeWith b64UrlAlphabet token.data with _ | decoded
    · simp [verifyToken, hne, hdec] at h
    · refine ⟨decoded, rfl, ?_⟩
      rcases hfind : store.recoverUser (fingerprintOf decoded) with _ | v
      · simp [verifyToken, hne, hdec, hfind] at h
      · rcases hexp : v.recoverTokenExpiry with _ | e
        · simp [verifyToken, hne, hdec, hfind, hexp] at h
        · rw [verifyToken_found_some store now token decoded v e hne hdec
            hfind hexp] at h
          by_cases hlt : e < now
          · rw [if_pos hlt] at h
            exact Except.noConfusion h
          · rw [if_neg hlt] at h
            exact congrArg some (Except.ok.inj h)

/-! ### Helper lemmas: the handlers -/

/-- The users of a store after a save. -/
theorem save_users (s : Store) (u' : Attributes) :
    (s.save u').users =
      s.users.map (fun v => if v.primaryID == u'.primaryID then u' else v) :=
  rfl

/-- Unfolding of a successful issuance: the found user is saved with the
fresh fingerprint and `now + duration` expiry, and the encoded secret goes
to the mailer. -/
theorem startHandlerPost_success (store : Store) (now dur : Int)
    (okPath pid : String) (bs : List Nat) (u : Attributes)
    (hfind : store.findByIdentifier pid = some u) (hem : u.email.isSome) :
    startHandlerPost store now dur okPath false (some bs) pid =
      (.redirect okPath recoverInitiateSuccessFlash,
       store.save { u with recoverToken := some (fingerprintOf bs),
                           recoverTokenExpiry := some (now + dur) },
       some (secretOf bs)) := by
  obtain ⟨em, hem'⟩ := Option.isSome_iff_exists.mp hem
  simp [startHandlerPost, hfind, hem', newToken]

/-! ### Concrete fixtures for witnesses and counterexamples -/

/-- A concrete 32-byte random draw: all zero bytes. -/
def cexBytes : List Nat := List.replicate 32 0

/-- A second concrete 32-byte random draw, differing from `cexBytes`. -/
def cexBytes2 : List Nat := List.replicate 32 1

/-- A concrete user holding the fingerprint of `cexBytes`, expiring at 5. -/
def cexUser : Attributes :=
  { primaryID := some "alice", email := some "alice@example.com",
    password := some "oldhash",
    recoverToken := some (fingerprintOf cexBytes),
    recoverTokenExpiry := some 5 }

/-- A one-user store whose user holds an outstanding fingerprint. -/
def cexStore : Store := ⟨[cexUser]⟩

/-- The same user with an absent/unreadable stored expiry. -/
def cexUserNoExpiry : Attributes := { cexUser with recoverTokenExpiry := none }

/-- A store whose user has a fingerprint but no readable expiry. -/
def cexStoreNoExpiry : Store := ⟨[cexUserNoExpiry]⟩

/-- The same user with no recovery in progress. -/
def cexUserFresh : Attributes :=
  { cexUser with recoverToken := none, recoverTokenExpiry := none }

/-- A store whose user has no recovery in progress. -/
def cexStoreFresh : Store := ⟨[cexUserFresh]⟩

/-! ### C1: the expiry boundary -/

/-- C1 (counterexample): the claim says expiry exactly at `now` counts as
expired, but on the code (`time.Now().After(expiry)`, a strict comparison)
a token whose stored expiry equals the current time still verifies: with
`recoveryExpiry = 5` and `now = 5`, `verifyToken` returns the user and does
not fail with `TokenExpired`. -/
theorem C1_boundary_counterexample :
    cexUser.recoverTokenExpiry = some 5 ∧
    verifyToken cexStore 5 (secretOf cexBytes) = .ok cexUser ∧
    verifyToken cexStore 5 (secretOf cexBytes) ≠ .error .tokenExpired := by
  have hok : verifyToken cexStore 5 (secretOf cexBytes) = .ok cexUser := rfl
  refine ⟨rfl, hok, fun h => ?_⟩
  rw [hok] at h
  exact Except.noConfusion h

/-- C1 (amended): for every user found by fingerprint with a readable stored
expiry, Verify succeeds exactly when `now ≤ recoveryExpiry` and fails with
`TokenExpired` exactly when `now > recoveryExpiry`; the boundary case
`now = recoveryExpiry` counts as still valid, not as expired. -/
theorem C1_expiry_boundary (store : Store) (now : Int) (token : String)
    (decoded : List Nat) (u : Attributes) (expiry : Int)
    (hne : token.length ≠ 0)
    (hdec : b64DecodeWith b64UrlAlphabet token.data = some decoded)
    (hfind : store.recoverUser (fingerprintOf decoded) = some u)
    (hexp : u.recoverTokenExpiry = some expiry) :
    (verifyToken store now token = .ok u ↔ now ≤ expiry) ∧
    (verifyToken store now token = .error .tokenExpired ↔ expiry < now) := by
  have h := verifyToken_found_some store now token decoded u expiry hne hdec
    hfind hexp
  rw [h]
  by_cases hlt : expiry < now
  · rw [if_pos hlt]
    refine ⟨⟨fun hok => Except.noConfusion hok, fun hle => absurd hlt (by omega)⟩,
      ⟨fun _ => hlt, fun _ => rfl⟩⟩
  · rw [if_neg hlt]
    refine ⟨⟨fun _ => by omega, fun _ => rfl⟩,
      ⟨fun herr => Except.noConfusion herr, fun hgt => absurd hgt hlt⟩⟩

/-- Witness for `C1_expiry_boundary` at a concrete store and time. -/
theorem C1_expiry_boundary_witness :
    (verifyToken cexStore 3 (secretOf cexBytes) = .ok cexUser ↔ (3 : Int) ≤ 5) ∧
    (verifyToken cexStore 3 (secretOf cexBytes) = .error .tokenExpired ↔
      (5 : Int) < 3) :=
  C1_expiry_boundary cexStore 3 (secretOf cexBytes) cexBytes cexUser 5
    (by decide) (by decide) (by decide) rfl

/-! ### C9: unreadable expiry counts as expired -/

/-- C9: when a user is found by fingerprint but the stored expiry attribute
is absent or cannot be read as a timestamp, Verify fails with the
`TokenExpired` error — the same error as a genuinely expired token — and not
with the not-found (`TokenInvalid`) error. -/
theorem C9_unreadable_expiry_expired (store : Store) (now : Int)
    (token : String) (decoded : List Nat) (u : Attributes)
    (hne : token.length ≠ 0)
    (hdec : b64DecodeWith b64UrlAlphabet token.data = some decoded)
    (hfind : store.recoverUser (fingerprintOf decoded) = some u)
    (hexp : u.recoverTokenExpiry = none) :
    verifyToken store now token = .error .tokenExpired ∧
    verifyToken store now token ≠ .error .userNotFound := by
  have h := verifyToken_found_none store now token decoded u hne hdec hfind hexp
  refine ⟨h, ?_⟩
  rw [h]
  intro hcon
  exact RecoverError.noConfusion (Except.error.inj hcon)

/-- Witness for `C9_unreadable_expiry_expired` at a concrete store. -/
theorem C9_unreadable_expiry_expired_witness :
    verifyToken cexStoreNoExpiry 0 (secretOf cexBytes) = .error .tokenExpired ∧
    verifyToken cexStoreNoExpiry 0 (secretOf cexBytes) ≠ .error .userNotFound :=
  C9_unreadable_expiry_expired cexStoreNoExpiry 0 (secretOf cexBytes) cexBytes
    cexUserNoExpiry (by decide) (by decide) (by decide) rfl

/-! ### C7: the failure taxonomy of Verify -/

/-- C7: for every presented secret, Verify fails with the client-data error
when the secret is empty, with the corrupt-input error when its transport
decoding fails, with the not-found error when no user record holds the
recomputed fingerprint, and reaches the expiry check — succeeding or failing
with `TokenExpired` — only for a user found by fingerprint. -/
theorem C7_verify_taxonomy (store : Store) (now : Int) (token : String) :
    (token.length = 0 → verifyToken store now token = .error .clientDataErr) ∧
    (token.length ≠ 0 → b64DecodeWith b64UrlAlphabet token.data = none →
      verifyToken store now token = .error .corruptInput) ∧
    (∀ decoded, token.length ≠ 0 →
      b64DecodeWith b64UrlAlphabet token.data = some decoded →
      store.recoverUser (fingerprintOf decoded) = none →
      verifyToken store now token = .error .userNotFound) ∧
    (∀ decoded u, token.length ≠ 0 →
      b64DecodeWith b64UrlAlphabet token.data = some decoded →
      store.recoverUser (fingerprintOf decoded) = some u →
      verifyToken store now token = .ok u ∨
        verifyToken store now token = .error .tokenExpired) := by
  refine ⟨?_, ?_, ?_, ?_⟩
  · intro h
    simp [verifyToken, h]
  · intro hne hdec
    simp [verifyToken, hne, hdec]
  · intro decoded hne hdec hfind
    simp [verifyToken, hne, hdec, hfind]
  · intro decoded u hne hdec hfind
    rcases hexp : u.recoverTokenExpiry with _ | e
    · exact Or.inr
        (verifyToken_found_none store now token decoded u hne hdec hfind hexp)
    · have h := verifyToken_found_some store now token decoded u e hne hdec
        hfind hexp
      by_cases hlt : e < now
      · rw [h, if_pos hlt]
        exact Or.inr rfl
      · rw [h, if_neg hlt]
        exact Or.inl rfl

/-- Witness for `C7_verify_taxonomy`: an empty secret, an undecodable
secret, and a secret whose fingerprint no stored record holds. -/
theorem C7_verify_taxonomy_witness :
    verifyToken cexStore 5 "" = .error .clientDataErr ∧
    verifyToken cexStore 5 "???" = .error .corruptInput ∧
    verifyToken cexStoreFresh 5 (secretOf cexBytes) = .error .userNotFound :=
  ⟨(C7_verify_taxonomy cexStore 5 "").1 (by decide),
   (C7_verify_taxonomy cexStore 5 "???").2.1 (by decide) (by decide),
   (C7_verify_taxonomy cexStoreFresh 5 (secretOf cexBytes)).2.2.1 cexBytes
     (by decide) (by decide) (by decide)⟩

/-! ### C3: the issue/verify round trip -/

/-- C3: for every `(secret, fingerprint)` pair returned by the token
generator, decoding the secret from its transport encoding gives back the
drawn bytes, and recomputing the fingerprint (MD5 digest, then storage
encoding) yields exactly the stored fingerprint — Verify's lookup key for a
freshly issued secret equals the persisted fingerprint. -/
theorem C3_round_trip (bs : List Nat) (hbytes : ∀ b ∈ bs, b < 256)
    (secret fpr : String)
    (hgen : newToken (some bs) = some (secret, fpr)) :
    b64DecodeWith b64UrlAlphabet secret.data = some bs ∧
    String.mk (b64EncodeWith b64StdAlphabet (md5sum bs)) = fpr := by
  have hpair : (secretOf bs, fingerprintOf bs) = (secret, fpr) :=
    Option.some.inj hgen
  have hs : secret = secretOf bs := (congrArg Prod.fst hpair).symm
  have hf : fpr = fingerprintOf bs := (congrArg Prod.snd hpair).symm
  subst hs
  subst hf
  exact ⟨b64Url_roundtrip bs hbytes, rfl⟩

/-- Witness for `C3_round_trip` at a concrete 32-byte draw. -/
theorem C3_round_trip_witness :
    b64DecodeWith b64UrlAlphabet (secretOf cexBytes).data = some cexBytes ∧
    String.mk (b64EncodeWith b64StdAlphabet (md5sum cexBytes)) =
      fingerprintOf cexBytes :=
  C3_round_trip cexBytes (by decide) (secretOf cexBytes)
    (fingerprintOf cexBytes) rfl

/-! ### C8: token generation -/

/-- C8: `newToken` fails only when the randomness source fails; otherwise
the secret is the URL-safe transport encoding of the 32 random bytes (so it
decodes back to all 32 ≥ 32 of them and consists only of URL-safe alphabet
characters and padding), and the fingerprint is the deterministic MD5
digest of those bytes in the storage encoding. -/
theorem C8_generate (randRead : Option (List Nat)) :
    (randRead = none → newToken randRead = none) ∧
    (∀ bs, randRead = some bs → bs.length = 32 → (∀ b ∈ bs, b < 256) →
      newToken randRead = some (secretOf bs, fingerprintOf bs) ∧
      b64DecodeWith b64UrlAlphabet (secretOf bs).data = some bs ∧
      32 ≤ bs.length ∧
      (∀ c ∈ (secretOf bs).data, c ∈ b64UrlAlphabet ∨ c = '=') ∧
      fingerprintOf bs = String.mk (b64EncodeWith b64StdAlphabet (md5sum bs)))
    := by
  constructor
  · intro h
    rw [h]
    rfl
  · intro bs hr hlen hbytes
    rw [hr]
    exact ⟨rfl, b64Url_roundtrip bs hbytes, by omega,
      b64EncodeWith_mem b64UrlAlphabet (by decide) bs, rfl⟩

/-- Witness for `C8_generate` at a concrete 32-byte draw. -/
theorem C8_generate_witness :
    newToken (some cexBytes) = some (secretOf cexBytes, fingerprintOf cexBytes)
    ∧ 32 ≤ cexBytes.length :=
  ⟨((C8_generate (some cexBytes)).2 cexBytes rfl (by decide) (by decide)).1,
   ((C8_generate (some cexBytes)).2 cexBytes rfl (by decide) (by decide)).2.2.1⟩

/-! ### C5: ordering of verification and policy validation in Complete -/

/-- C5 (counterexample): with a token that is nonempty but undecodable AND a
password that fails policy validation, `completeHandlerFunc` renders the
password-policy errors; it does not propagate the Verify failure.  So
Complete validates the password BEFORE calling `verifyToken`, contradicting
the claim that Verify runs first and its failure is the one propagated. -/
theorem C5_order_counterexample :
    verifyToken cexStore 0 "???" = .error .corruptInput ∧
    (completeHandlerPost cexStore 0 true (fun _ => some "h") true "/login"
        "???" "pw").1 = .renderValidationErrs ∧
    (completeHandlerPost cexStore 0 true (fun _ => some "h") true "/login"
        "???" "pw").1 ≠ .verifyErr .corruptInput := by
  exact ⟨rfl, rfl, by decide⟩

/-- C5 (amended): Complete checks only that the token is nonempty, then
validates the new password against policy BEFORE verifying the token; Verify
runs only when policy validation passes, and its failure is then propagated
unchanged.  When both the (nonempty) token and the password are invalid, the
policy failure is the one surfaced. -/
theorem C5_policy_before_verify (store : Store) (now : Int) (perrs : Bool)
    (bc : String → Option String) (fire : Bool)
    (path token password : String) (hne : token.length ≠ 0) :
    (perrs = true →
      (completeHandlerPost store now perrs bc fire path token password).1 =
        .renderValidationErrs) ∧
    (perrs = false → ∀ e, verifyToken store now token = .error e →
      completeHandlerPost store now perrs bc fire path token password =
        (.verifyErr e, store)) := by
  constructor
  · intro hp
    simp [completeHandlerPost, hne, hp]
  · intro hp e he
    simp [completeHandlerPost, hne, hp, he]

/-- Witness for `C5_policy_before_verify`: a failing policy short-circuits,
and with a passing policy a Verify failure is propagated unchanged. -/
theorem C5_policy_before_verify_witness :
    (completeHandlerPost cexStore 0 true (fun _ => some "h") true "/login"
      "AAAA" "pw").1 = .renderValidationErrs ∧
    completeHandlerPost cexStore 0 false (fun _ => some "h") true "/login"
      "!bad" "pw" = (.verifyErr .corruptInput, cexStore) :=
  ⟨(C5_policy_before_verify cexStore 0 true (fun _ => some "h") true "/login"
      "AAAA" "pw" (by decide)).1 rfl,
   (C5_policy_before_verify cexStore 0 false (fun _ => some "h") true "/login"
      "!bad" "pw" (by decide)).2 rfl RecoverError.corruptInput rfl⟩

/-! ### C4: anti-enumeration -/

/-- C4: Initiate on a nonexistent identifier produces the same externally
observable success outcome — the same redirect target and the same success
flash — as Initiate on an existing identifier; in the nonexistent case the
store is unchanged, no secret is handed to the mailer, and the outcome does
not depend on the randomness source at all (no token is generated).  The
dispatch of the not-found `ErrAndRedirect` into a redirect-with-flash is
the spec-modelled `StartResult.observable`. -/
theorem C4_anti_enumeration (store : Store) (now1 dur1 now2 dur2 : Int)
    (okPath pidMissing pidExisting : String) (u : Attributes)
    (randMissing randExisting : Option (List Nat))
    (hmissing : store.findByIdentifier pidMissing = none)
    (hfound : store.findByIdentifier pidExisting = some u)
    (hemail : u.email.isSome) (hrand : randExisting.isSome) :
    ((startHandlerPost store now1 dur1 okPath false randMissing
        pidMissing).1).observable = some (okPath, recoverInitiateSuccessFlash) ∧
    ((startHandlerPost store now2 dur2 okPath false randExisting
        pidExisting).1).observable = some (okPath, recoverInitiateSuccessFlash) ∧
    (startHandlerPost store now1 dur1 okPath false randMissing pidMissing).2.1
      = store ∧
    (startHandlerPost store now1 dur1 okPath false randMissing pidMissing).2.2
      = none ∧
    (∀ rand', startHandlerPost store now1 dur1 okPath false rand' pidMissing =
      startHandlerPost store now1 dur1 okPath false randMissing pidMissing) := by
  obtain ⟨em, hem⟩ := Option.isSome_iff_exists.mp hemail
  obtain ⟨bs, hbs⟩ := Option.isSome_iff_exists.mp hrand
  subst hbs
  refine ⟨?_, ?_, ?_, ?_, ?_⟩
  · simp [startHandlerPost, hmissing, StartResult.observable]
  · simp [startHandlerPost, hfound, hem, newToken, StartResult.observable]
  · simp [startHandlerPost, hmissing]
  · simp [startHandlerPost, hmissing]
  · intro rand'
    simp [startHandlerPost, hmissing]

/-- Witness for `C4_anti_enumeration`: a missing "bob" and an existing
"alice" in a concrete store. -/
theorem C4_anti_enumeration_witness :
    ((startHandlerPost cexStoreFresh 1 10 "/ok" false none "bob").1).observable
      = some ("/ok", recoverInitiateSuccessFlash) ∧
    ((startHandlerPost cexStoreFresh 1 10 "/ok" false (some cexBytes)
        "alice").1).observable = some ("/ok", recoverInitiateSuccessFlash) ∧
    (startHandlerPost cexStoreFresh 1 10 "/ok" false none "bob").2.1 =
      cexStoreFresh ∧
    (startHandlerPost cexStoreFresh 1 10 "/ok" false none "bob").2.2 = none := by
  have h := C4_anti_enumeration cexStoreFresh 1 10 1 10 "/ok" "bob" "alice"
    cexUserFresh none (some cexBytes) (by decide) (by decide) (by decide)
    (by decide)
  exact ⟨h.1, h.2.1, h.2.2.1, h.2.2.2.1⟩

/-! ### C2: single use -/

/-- C2: a successful Complete commits the new password hash and clears both
recovery fields — `recover_token` emptied, `recover_token_expiry` zeroed —
in one and the same `Save`, and a subsequent Verify with the same secret
fails with the not-found (`TokenInvalid`) error.  The uniqueness hypothesis
says the consumed fingerprint is held only under the consumed user's primary
identifier, which is how issuance stores it. -/
theorem C2_single_use (store : Store) (now now2 : Int)
    (bc : String → Option String) (path token password hash pid : String)
    (u : Attributes)
    (hverify : verifyToken store now token = .ok u)
    (hbc : bc password = some hash)
    (hpid : u.primaryID = some pid)
    (huniq : ∀ v ∈ store.users, v.recoverToken = u.recoverToken →
      v.primaryID = u.primaryID) :
    completeHandlerPost store now false bc true path token password =
      (.redirect path pid,
       store.save { u with password := some hash, recoverToken := some "",
                           recoverTokenExpiry := some nullTime }) ∧
    verifyToken
      (store.save { u with password := some hash, recoverToken := some "",
                           recoverTokenExpiry := some nullTime }) now2 token =
      .error .userNotFound := by
  obtain ⟨hne, decoded, hdec, hfind⟩ :=
    verifyToken_ok_inv store now token u hverify
  have hmem := recoverUser_mem store (fingerprintOf decoded) u hfind
  constructor
  · simp [completeHandlerPost, hne, hverify, hbc, hpid]
  · have hnone : (store.save
        { u with password := some hash, recoverToken := some "",
                 recoverTokenExpiry := some nullTime }).recoverUser
        (fingerprintOf decoded) = none := by
      apply recoverUser_save_cleared store u
        { u with password := some hash, recoverToken := some "",
                 recoverTokenExpiry := some nullTime }
        (fingerprintOf decoded) rfl rfl (fingerprintOf_ne_empty decoded)
      intro v hv hvt
      exact huniq v hv (hvt.trans hmem.2.symm)
    simp [verifyToken, hne, hdec, hnone]

/-- Alice's record as a successful completion saves it: a new password
hash, the emptied fingerprint, the zeroed expiry. -/
def cexUserConsumed (hash : String) : Attributes :=
  { cexUser with password := some hash, recoverToken := some "",
                 recoverTokenExpiry := some nullTime }

/-- Witness for `C2_single_use`: alice consumes her concrete secret. -/
theorem C2_single_use_witness :
    completeHandlerPost cexStore 3 false (fun _ => some "newhash") true
        "/login" (secretOf cexBytes) "NewPass1" =
      (.redirect "/login" "alice", cexStore.save (cexUserConsumed "newhash")) ∧
    verifyToken (cexStore.save (cexUserConsumed "newhash")) 4
      (secretOf cexBytes) = .error .userNotFound :=
  C2_single_use cexStore 3 4 (fun _ => some "newhash") "/login"
    (secretOf cexBytes) "NewPass1" "newhash" "alice" cexUser rfl rfl rfl
    (by decide)

/-! ### C10: the cleared-fingerprint sentinel -/

/-- C10: a successful Complete clears the stored fingerprint by writing the
empty string — the attribute stays present rather than being removed; the
lookup key Verify computes is always the storage encoding of the
fixed-length 16-byte MD5 digest and hence nonempty; therefore, for every
presented secret, a fingerprint lookup can never return a consumed
record. -/
theorem C10_sentinel (store : Store) (now : Int)
    (bc : String → Option String) (path token password hash pid : String)
    (u : Attributes)
    (hverify : verifyToken store now token = .ok u)
    (hbc : bc password = some hash)
    (hpid : u.primaryID = some pid) :
    (completeHandlerPost store now false bc true path token password).2 =
      store.save { u with password := some hash, recoverToken := some "",
                          recoverTokenExpiry := some nullTime } ∧
    ({ u with password := some hash, recoverToken := some "",
              recoverTokenExpiry := some nullTime } : Attributes).recoverToken
      = some "" ∧
    (∀ bs : List Nat, (md5sum bs).length = 16 ∧ fingerprintOf bs ≠ "") ∧
    (∀ (s : Store) (w : Attributes) (tok : String) (decoded : List Nat),
      w.recoverToken = some "" →
      b64DecodeWith b64UrlAlphabet tok.data = some decoded →
      s.recoverUser (fingerprintOf decoded) ≠ some w) := by
  obtain ⟨hne, decoded, hdec, hfind⟩ :=
    verifyToken_ok_inv store now token u hverify
  refine ⟨?_, rfl, fun bs => ⟨md5sum_length bs, fingerprintOf_ne_empty bs⟩,
    ?_⟩
  · simp [completeHandlerPost, hne, hverify, hbc, hpid]
  · intro s w tok dec hw hdec2 hcontra
    have hwt := (recoverUser_mem s (fingerprintOf dec) w hcontra).2
    rw [hw] at hwt
    exact fingerprintOf_ne_empty dec (Option.some.inj hwt).symm

/-- Witness for `C10_sentinel`: alice's consumed record carries the empty
sentinel, still present. -/
theorem C10_sentinel_witness :
    (completeHandlerPost cexStore 3 false (fun _ => some "h10") true "/login"
        (secretOf cexBytes) "NewPass1").2 =
      cexStore.save (cexUserConsumed "h10") ∧
    (cexUserConsumed "h10").recoverToken = some "" :=
  ⟨(C10_sentinel cexStore 3 (fun _ => some "h10") "/login"
      (secretOf cexBytes) "NewPass1" "h10" "alice" cexUser rfl rfl rfl).1,
   (C10_sentinel cexStore 3 (fun _ => some "h10") "/login"
      (secretOf cexBytes) "NewPass1" "h10" "alice" cexUser rfl rfl rfl).2.1⟩

/-! ### C6: overwrite semantics -/

/-- Members of a saved store come from the original store, each replaced by
the saved record when the primary identifiers agree. -/
theorem mem_save (s : Store) (u' x : Attributes)
    (hx : x ∈ (s.save u').users) :
    ∃ v ∈ s.users, x = if v.primaryID == u'.primaryID then u' else v := by
  rw [save_users] at hx
  obtain ⟨v, hv, hxv⟩ := List.mem_map.mp hx
  exact ⟨v, hv, hxv.symm⟩

/-- After two successive saves keyed to the same primary identifier, every
record with that identifier is the second saved record. -/
theorem save_save_pid (store : Store) (u u1 u2 : Attributes) (pid : String)
    (hupid : u.primaryID = some pid)
    (hpid1 : u1.primaryID = u.primaryID)
    (hpid2 : u2.primaryID = u1.primaryID) :
    ∀ v ∈ ((store.save u1).save u2).users, v.primaryID = some pid →
      v = u2 := by
  intro v hv hvpid
  obtain ⟨w, hw, hvw⟩ := mem_save _ u2 v hv
  obtain ⟨v0, hv0, hwv0⟩ := mem_save store u1 w hw
  by_cases hc2 : w.primaryID == u2.primaryID
  · rw [hvw, if_pos hc2]
  · rw [if_neg hc2] at hvw
    by_cases hc : v0.primaryID == u1.primaryID
    · rw [if_pos hc] at hwv0
      exact absurd (by rw [hwv0]; exact beq_iff_eq.mpr hpid2.symm) hc2
    · rw [if_neg hc] at hwv0
      rw [hwv0] at hvw
      rw [hvw] at hvpid
      exact absurd
        (beq_iff_eq.mpr ((hvpid.trans hupid.symm).trans hpid1.symm)) hc

/-- After two saves that successively overwrite a user's fingerprint, no
record holds the first fingerprint, provided it was fresh before issuance
and the second one differs from it. -/
theorem save_save_no_old_fp (store : Store) (u u1 u2 : Attributes)
    (fp1 : String)
    (_hpid1 : u1.primaryID = u.primaryID)
    (hpid2 : u2.primaryID = u1.primaryID)
    (ht2 : u2.recoverToken ≠ some fp1)
    (hfresh : ∀ v ∈ store.users, v.recoverToken ≠ some fp1) :
    ((store.save u1).save u2).recoverUser fp1 = none := by
  apply List.find?_eq_none.mpr
  intro x hx
  obtain ⟨w, hw, hxw⟩ := mem_save _ u2 x hx
  obtain ⟨v0, hv0, hwv0⟩ := mem_save store u1 w hw
  simp only [beq_iff_eq]
  intro hxt
  by_cases hc2 : w.primaryID == u2.primaryID
  · rw [if_pos hc2] at hxw
    rw [hxw] at hxt
    exact ht2 hxt
  · rw [if_neg hc2] at hxw
    by_cases hc : v0.primaryID == u1.primaryID
    · rw [if_pos hc] at hwv0
      exact hc2 (by rw [hwv0]; exact beq_iff_eq.mpr hpid2.symm)
    · rw [if_neg hc] at hwv0
      rw [hwv0] at hxw
      rw [hxw] at hxt
      exact hfresh v0 hv0 hxt

/-- C6: a second Initiate for the same user overwrites the stored
recoveryFingerprint and recoveryExpiry with the freshly generated values,
so — the fresh fingerprint differing from the first one, as holds for two
independent 32-byte draws up to an MD5 collision (hypothesis `hdiff`) — the
first secret no longer matches any stored fingerprint, and fails Verify
with the not-found (`TokenInvalid`) error.  `hfresh` states the first
fingerprint was fresh at issuance: no record already held it. -/
theorem C6_overwrite (store : Store) (now1 dur1 now2 dur2 now3 : Int)
    (okPath pid : String) (bs1 bs2 : List Nat) (u : Attributes)
    (hb1 : ∀ b ∈ bs1, b < 256) (hne1 : bs1 ≠ [])
    (hfind : store.findByIdentifier pid = some u)
    (hem : u.email.isSome)
    (hdiff : fingerprintOf bs2 ≠ fingerprintOf bs1)
    (hfresh : ∀ v ∈ store.users,
      v.recoverToken ≠ some (fingerprintOf bs1)) :
    (∀ v ∈ ((startHandlerPost
        (startHandlerPost store now1 dur1 okPath false (some bs1) pid).2.1
        now2 dur2 okPath false (some bs2) pid).2.1).users,
      v.primaryID = some pid →
        v.recoverToken = some (fingerprintOf bs2) ∧
        v.recoverTokenExpiry = some (now2 + dur2)) ∧
    verifyToken ((startHandlerPost
        (startHandlerPost store now1 dur1 okPath false (some bs1) pid).2.1
        now2 dur2 okPath false (some bs2) pid).2.1) now3 (secretOf bs1) =
      .error .userNotFound := by
  have hupid := (findByIdentifier_mem store pid u hfind).2
  have h1 := startHandlerPost_success store now1 dur1 okPath pid bs1 u hfind
    hem
  have hE1 : (startHandlerPost store now1 dur1 okPath false (some bs1)
      pid).2.1 =
      store.save { u with recoverToken := some (fingerprintOf bs1),
                          recoverTokenExpiry := some (now1 + dur1) } := by
    rw [h1]
  rw [hE1]
  generalize hu1 : ({ u with recoverToken := some (fingerprintOf bs1), recoverTokenExpiry := some (now1 + dur1) } : Attributes) = u1
  have hu1pid : u1.primaryID = u.primaryID := by rw [← hu1]
  have hu1em : u1.email.isSome := by rw [← hu1]; exact hem
  have hfind1 := findByIdentifier_save store u u1 pid hfind hu1pid
  have h2 := startHandlerPost_success (store.save u1) now2 dur2 okPath pid
    bs2 u1 hfind1 hu1em
  have hE2 : (startHandlerPost (store.save u1) now2 dur2 okPath false
      (some bs2) pid).2.1 =
      (store.save u1).save
        { u1 with recoverToken := some (fingerprintOf bs2),
                  recoverTokenExpiry := some (now2 + dur2) } := by
    rw [h2]
  rw [hE2]
  generalize hu2 : ({ u1 with recoverToken := some (fingerprintOf bs2), recoverTokenExpiry := some (now2 + dur2) } : Attributes) = u2
  have hu2pid : u2.primaryID = u1.primaryID := by rw [← hu2]
  have hu2tok : u2.recoverToken = some (fingerprintOf bs2) := by rw [← hu2]
  have hu2exp : u2.recoverTokenExpiry = some (now2 + dur2) := by rw [← hu2]
  constructor
  · intro v hv hvpid
    rw [save_save_pid store u u1 u2 pid hupid hu1pid hu2pid v hv hvpid]
    exact ⟨hu2tok, hu2exp⟩
  · have hne : (secretOf bs1).length ≠ 0 := secretOf_length_ne_zero bs1 hne1
    have hdec : b64DecodeWith b64UrlAlphabet (secretOf bs1).data = some bs1 :=
      b64Url_roundtrip bs1 hb1
    have ht2 : u2.recoverToken ≠ some (fingerprintOf bs1) := by
      rw [hu2tok]
      intro hcon
      exact hdiff (Option.some.inj hcon)
    have hnone := save_save_no_old_fp store u u1 u2 (fingerprintOf bs1)
      hu1pid hu2pid ht2 hfresh
    simp [verifyToken, hne, hdec, hnone]

/-- Witness for `C6_overwrite`: two successive issuances for alice with
distinct draws, after which the first secret no longer verifies. -/
theorem C6_overwrite_witness :
    verifyToken ((startHandlerPost
        (startHandlerPost cexStoreFresh 1 10 "/ok" false (some cexBytes)
          "alice").2.1
        2 10 "/ok" false (some cexBytes2) "alice").2.1) 3
      (secretOf cexBytes) = .error .userNotFound :=
  (C6_overwrite cexStoreFresh 1 10 2 10 3 "/ok" "alice" cexBytes cexBytes2
    cexUserFresh (by decide) (by decide) (by decide) (by decide) (by decide)
    (by decide)).2

end Recover
